import Mathlib

/-!
Verification development for the canva-sdk-django-backend generation pipeline.

The Python sources are shallowly embedded as Lean definitions:
* `estimate_pixels` — presentation_maker/controllers.py (layout estimator), over ℚ.
* `clean`, `sanitize` — the markdown-fence stripping and strict JSON parsing
  performed on the agent's raw output in `create_canva_functions`
  (controllers.py lines 179-187).  `parseTop` models Python's `json.loads`
  (strict JSON: no trailing commas, no leading zeros, string keys only,
  whole-input consumption); numbers are idealised as exact rationals.
* `lookupKey`, `setKey`, `replace_images`, `search_pexels_image` — core/utils.py.
  External effects (environment, HTTP) appear as explicit parameters; a Python
  exception escaping a function is an `Except.error`.
* `_get_vectorstore`, `query_pinecone`, `handle_rag` — presentation_maker/rag/canva_rag.py.
* `create_canva_functions`, `canvarequest` — controllers.py / views.py, with a
  trace of the external calls (planner, retrieval, agent, image search) a run issues.
-/

/-! ## Characters and Python-style string helpers -/

/-- The backtick character (written via its code point). -/
def tick : Char := Char.ofNat 96

/-- JSON whitespace characters (what Python's `json.loads` skips). -/
def isJsonWs (c : Char) : Bool := c = ' ' || c = '\t' || c = '\n' || c = '\r'

/-- Whitespace stripped by Python's `str.strip()` (ASCII part). -/
def isPyWs (c : Char) : Bool :=
  c = ' ' || c = '\t' || c = '\n' || c = '\r' || c = Char.ofNat 11 || c = Char.ofNat 12

def skipWs (s : List Char) : List Char := s.dropWhile isJsonWs

/-- Does `pat` occur at the head of `s`? -/
def headMatch : List Char → List Char → Bool
  | [], _ => true
  | _ :: _, [] => false
  | p :: ps, c :: cs => p == c && headMatch ps cs

/-- Does `pat` occur anywhere in `s` (Python's `pat in s`)? -/
def occurs (pat : List Char) : List Char → Bool
  | [] => headMatch pat []
  | c :: rest => headMatch pat (c :: rest) || occurs pat rest

/-- Fuelled left-to-right non-overlapping replacement of the nonempty pattern
`p :: ps` by `repl`, the semantics of Python's `str.replace`. -/
def replaceF (p : Char) (ps repl : List Char) : ℕ → List Char → List Char
  | _, [] => []
  | 0, s => s
  | f + 1, c :: rest =>
    if headMatch (p :: ps) (c :: rest) then repl ++ replaceF p ps repl f (rest.drop ps.length)
    else c :: replaceF p ps repl f rest

/-- Python's `s.replace(p :: ps, repl)` (the fuel `s.length` is always enough:
each step consumes at least one character). -/
def pyReplace (p : Char) (ps repl s : List Char) : List Char := replaceF p ps repl s.length s

/-- Python's `s.strip()`. -/
def pyStrip (s : List Char) : List Char :=
  ((s.dropWhile isPyWs).reverse.dropWhile isPyWs).reverse

/-- The code-fence delimiter three-backticks pattern. -/
def fenceTicks : List Char := [tick, tick, tick]

/-- The tagged code-fence opener pattern, three backticks followed by `json`. -/
def fenceJsonTag : List Char := [tick, tick, tick, 'j', 's', 'o', 'n']

/-! ## JSON values and a model of Python's `json.loads` -/

/-- JSON values as produced by `json.loads`; numbers are idealised as exact
rationals. -/
inductive Json where
  | null
  | bool : Bool → Json
  | num : ℚ → Json
  | str : String → Json
  | arr : List Json → Json
  | obj : List (String × Json) → Json

def hexVal (c : Char) : Option ℕ :=
  if '0' ≤ c ∧ c ≤ '9' then some (c.toNat - 48)
  else if 'a' ≤ c ∧ c ≤ 'f' then some (c.toNat - 87)
  else if 'A' ≤ c ∧ c ≤ 'F' then some (c.toNat - 55)
  else none

def escChar : Char → Option Char
  | '"' => some '"'
  | '\\' => some '\\'
  | '/' => some '/'
  | 'b' => some (Char.ofNat 8)
  | 'f' => some (Char.ofNat 12)
  | 'n' => some '\n'
  | 'r' => some '\r'
  | 't' => some '\t'
  | _ => none

/-- Body of a JSON string after the opening quote: returns the decoded
characters and the input remaining after the closing quote.  Strict mode:
unescaped control characters are rejected; `\\uXXXX` escapes are decoded as a
single code point (surrogate pairing is not modelled). -/
def parseStrBody : List Char → Option (List Char × List Char)
  | [] => none
  | '"' :: rest => some ([], rest)
  | '\\' :: 'u' :: a :: b :: c :: d :: rest =>
    match hexVal a, hexVal b, hexVal c, hexVal d with
    | some ha, some hb, some hc, some hd =>
      (parseStrBody rest).map (fun (s, r) => (Char.ofNat (((ha * 16 + hb) * 16 + hc) * 16 + hd) :: s, r))
    | _, _, _, _ => none
  | '\\' :: e :: rest =>
    match escChar e with
    | some ch => (parseStrBody rest).map (fun (s, r) => (ch :: s, r))
    | none => none
  | c :: rest =>
    if c.toNat < 32 then none
    else (parseStrBody rest).map (fun (s, r) => (c :: s, r))

def digitsVal (l : List Char) : ℕ := l.foldl (fun a c => a * 10 + (c.toNat - 48)) 0

/-- Optional exponent part of a JSON number. -/
def withExp (m : ℚ) (r : List Char) : Option (ℚ × List Char) :=
  match r with
  | 'e' :: r' =>
    match r' with
    | '+' :: t =>
      let es := t.takeWhile Char.isDigit
      if es = [] then none else some (m * (10 : ℚ) ^ ((digitsVal es : ℤ)), t.dropWhile Char.isDigit)
    | '-' :: t =>
      let es := t.takeWhile Char.isDigit
      if es = [] then none else some (m * (10 : ℚ) ^ (-(digitsVal es : ℤ)), t.dropWhile Char.isDigit)
    | _ =>
      let es := r'.takeWhile Char.isDigit
      if es = [] then none else some (m * (10 : ℚ) ^ ((digitsVal es : ℤ)), r'.dropWhile Char.isDigit)
  | 'E' :: r' =>
    match r' with
    | '+' :: t =>
      let es := t.takeWhile Char.isDigit
      if es = [] then none else some (m * (10 : ℚ) ^ ((digitsVal es : ℤ)), t.dropWhile Char.isDigit)
    | '-' :: t =>
      let es := t.takeWhile Char.isDigit
      if es = [] then none else some (m * (10 : ℚ) ^ (-(digitsVal es : ℤ)), t.dropWhile Char.isDigit)
    | _ =>
      let es := r'.takeWhile Char.isDigit
      if es = [] then none else some (m * (10 : ℚ) ^ ((digitsVal es : ℤ)), r'.dropWhile Char.isDigit)
  | _ => some (m, r)

/-- JSON number after an optional leading minus sign (strict grammar:
nonempty digit run, no leading zeros, nonempty fraction and exponent parts). -/
def parseNumberCore (neg : Bool) (s₁ : List Char) : Option (ℚ × List Char) :=
  let ds := s₁.takeWhile Char.isDigit
  let r₁ := s₁.dropWhile Char.isDigit
  if ds = [] then none
  else if 1 < ds.length ∧ ds.head? = some '0' then none
  else
    let ip : ℤ := if neg then -(digitsVal ds : ℤ) else (digitsVal ds : ℤ)
    match r₁ with
    | '.' :: r₂ =>
      let fs := r₂.takeWhile Char.isDigit
      if fs = [] then none
      else
        let mag : ℚ := (digitsVal ds : ℚ) + (digitsVal fs : ℚ) / (10 : ℚ) ^ fs.length
        withExp (if neg then -mag else mag) (r₂.dropWhile Char.isDigit)
    | 'e' :: _ => withExp ((ip : ℚ)) r₁
    | 'E' :: _ => withExp ((ip : ℚ)) r₁
    | _ => some (((ip : ℚ)), r₁)

mutual

/-- One JSON value (after skipping leading whitespace), returning the remainder. -/
def parseVal : ℕ → List Char → Option (Json × List Char)
  | 0, _ => none
  | f + 1, s =>
    match skipWs s with
    | 'n' :: 'u' :: 'l' :: 'l' :: r => some (.null, r)
    | 't' :: 'r' :: 'u' :: 'e' :: r => some (.bool true, r)
    | 'f' :: 'a' :: 'l' :: 's' :: 'e' :: r => some (.bool false, r)
    | '"' :: r => (parseStrBody r).map (fun (cs, r') => (.str (String.mk cs), r'))
    | '[' :: r =>
      match skipWs r with
      | ']' :: r' => some (.arr [], r')
      | _ => (parseElems f r).map (fun (vs, r') => (.arr vs, r'))
    | '{' :: r =>
      match skipWs r with
      | '}' :: r' => some (.obj [], r')
      | _ => (parseMembers f r).map (fun (ms, r') => (.obj ms, r'))
    | '-' :: r => (parseNumberCore true r).map (fun (q, r') => (.num q, r'))
    | c :: r => if c.isDigit then (parseNumberCore false (c :: r)).map (fun (q, r') => (.num q, r')) else none
    | [] => none

/-- Comma-separated array elements up to the closing bracket. -/
def parseElems : ℕ → List Char → Option (List Json × List Char)
  | 0, _ => none
  | f + 1, s =>
    match parseVal f s with
    | none => none
    | some (v, r) =>
      match skipWs r with
      | ',' :: r' => (parseElems f r').map (fun (vs, r'') => (v :: vs, r''))
      | ']' :: r' => some ([v], r')
      | _ => none

/-- Comma-separated object members up to the closing brace. -/
def parseMembers : ℕ → List Char → Option (List (String × Json) × List Char)
  | 0, _ => none
  | f + 1, s =>
    match skipWs s with
    | '"' :: r =>
      match parseStrBody r with
      | none => none
      | some (k, r₁) =>
        match skipWs r₁ with
        | ':' :: r₂ =>
          match parseVal f r₂ with
          | none => none
          | some (v, r₃) =>
            match skipWs r₃ with
            | ',' :: r₄ => (parseMembers f r₄).map (fun (ms, r₅) => ((String.mk k, v) :: ms, r₅))
            | '}' :: r₄ => some ([(String.mk k, v)], r₄)
            | _ => none
        | _ => none
    | _ => none

end

/-- Model of Python's `json.loads`: one JSON document, whole input consumed
(up to surrounding whitespace).  The fuel `2 * length + 4` is always
sufficient: along any chain of nested calls at least one character is
consumed every two steps. -/
def parseTop (s : List Char) : Option Json :=
  match parseVal (2 * s.length + 4) s with
  | some (v, r) => if skipWs r = [] then some v else none
  | none => none

/-! ## The output sanitizer (controllers.py lines 179-187) -/

/-- The fence-stripping step: if the raw text contains a three-backtick
delimiter, remove every occurrence of the tagged opener and of the bare
delimiter and strip surrounding whitespace, else leave the text unchanged.
Mirrors `response_content.replace("` ``json", "").replace("` ``", "").strip()`
guarded by `if "` ``" in response_content`. -/
def clean (s : List Char) : List Char :=
  if occurs fenceTicks s then
    pyStrip (pyReplace tick [tick, tick] [] (pyReplace tick [tick, tick, 'j', 's', 'o', 'n'] [] s))
  else s

/-- The sanitizer: strip fences, then parse strictly as JSON.  On parse
failure the code logs the offending (fence-stripped) text and raises
`ValueError`; the failure case carries that offending text. -/
def sanitize (s : List Char) : Except (List Char) Json :=
  match parseTop (clean s) with
  | some v => .ok v
  | none => .error (clean s)

/-! ## The layout estimator (controllers.py, `estimate_pixels`) -/

/-- Estimated height in pixels of a text block, exactly as computed by
`estimate_pixels` (controllers.py lines 76-115): pt→px at 96/72 DPI,
characters per line from the width and the character-width factor `mu`,
`ceil` for the wrapped line count, line height 1.4 em plus 1.1 em padding. -/
def estimate_pixels (content : String) (box_width_px font_size_pt : ℚ) (mu : ℚ := 0.56) : ℚ :=
  let font_size_px : ℚ := font_size_pt * (96 / 72)
  let chars_per_line : ℚ := box_width_px / (mu * font_size_px)
  let num_lines : ℤ := ⌈(content.length : ℚ) / chars_per_line⌉
  (font_size_px * 1.4) * (num_lines : ℚ) + 1.1 * font_size_px

/-! ## core/utils.py: Pexels image search and the asset resolver -/

/-- Python dicts appearing in the layout array, as association lists in
insertion order. -/
abbrev PyDict := List (String × Json)

def lookupKey (k : String) : PyDict → Option Json
  | [] => none
  | (k', v) :: rest => if k' = k then some v else lookupKey k rest

/-- Assignment `item[k] = v` to an existing key: the value changes in place,
position and all other entries are untouched. -/
def setKey (k : String) (v : Json) : PyDict → PyDict
  | [] => []
  | (k', v') :: rest => if k' = k then (k', v) :: rest else (k', v') :: setKey k v rest

/-- The fixed fallback URL of core/utils.py. -/
def pexels_placeholder : String := "https://i.postimg.cc/jSYRBQWR/image-not-found.png"

/-- Outcome of the HTTP request to the Pexels API: a `requests.RequestException`
(connection error, timeout, bad status, undecodable JSON body — all caught by
the code), or a decoded JSON body. -/
inductive NetOutcome where
  | reqError
  | ok (body : Json)

/-- Result of a Python subscript `v[k]` / `v[0]`: a value, a `KeyError` or
`IndexError` (both caught by the code), or a `TypeError` (not caught). -/
inductive PySub where
  | found (v : Json)
  | keyIndexErr
  | typeErr

/-- Python `v[k]` for a string key. -/
def getItemKey (v : Json) (k : String) : PySub :=
  match v with
  | .obj fs =>
    match lookupKey k fs with
    | some x => .found x
    | none => .keyIndexErr
  | _ => .typeErr

/-- Python `v[0]`. -/
def getItemZero (v : Json) : PySub :=
  match v with
  | .arr (x :: _) => .found x
  | .arr [] => .keyIndexErr
  | .obj _ => .keyIndexErr
  | .str s =>
    match s.data with
    | [] => .keyIndexErr
    | c :: _ => .found (.str (String.mk [c]))
  | _ => .typeErr

/-- Python truthiness of a JSON value. -/
def pyTruthy : Json → Bool
  | .null => false
  | .bool b => b
  | .num q => !(q.num == 0)
  | .str s => !(s == "")
  | .arr l => !l.isEmpty
  | .obj l => !l.isEmpty

/-- Model of `search_pexels_image` (core/utils.py lines 12-48): placeholder on a missing
key, on a request failure, on a falsy `photos` value, and on `KeyError` /
`IndexError` while extracting `photos[0]['src']['medium']`; an uncaught
`TypeError` (subscripting a value of the wrong type) escapes as `.error`. -/
def search_pexels_image (apiKey : String) (net : NetOutcome) : Except String Json :=
  if apiKey = "" then .ok (.str pexels_placeholder)
  else
    match net with
    | .reqError => .ok (.str pexels_placeholder)
    | .ok body =>
      match body with
      | .obj fs =>
        let photos := (lookupKey "photos" fs).getD (.arr [])
        if pyTruthy photos then
          match getItemZero photos with
          | .typeErr => .error "TypeError"
          | .keyIndexErr => .ok (.str pexels_placeholder)
          | .found p =>
            match getItemKey p "src" with
            | .typeErr => .error "TypeError"
            | .keyIndexErr => .ok (.str pexels_placeholder)
            | .found src =>
              match getItemKey src "medium" with
              | .typeErr => .error "TypeError"
              | .keyIndexErr => .ok (.str pexels_placeholder)
              | .found m => .ok m
        else .ok (.str pexels_placeholder)
      | _ => .error "AttributeError"

/-- Model of `replace_images` (core/utils.py lines 51-65): for each element carrying a
`ref` key, reassign `item["ref"]` to the search result for the current value;
elements without `ref` pass through; an exception escaping the search aborts
the whole loop.  The image-search capability is the explicit `search`
parameter. -/
def replace_images (search : Json → Except String Json) : List PyDict → Except String (List PyDict)
  | [] => .ok []
  | item :: rest =>
    match (match lookupKey "ref" item with
           | some old => (search old).map (fun u => setKey "ref" u item)
           | none => .ok item) with
    | .error e => .error e
    | .ok item' => (replace_images search rest).map (item' :: ·)

/-! ## rag/canva_rag.py: the reference retriever -/

/-- The `StepBreakdown` schema (presentation_maker/schemas.py). -/
structure StepBreakdown where
  steps : List String
  rag_query : List String

/-- The message of the `ValueError` raised when the Pinecone credential is
missing (canva_rag.py lines 38-42). -/
def pinecone_key_error : String :=
  "PINECONE_API_KEY not found in environment variables. Please set it in your .env file."

/-- Model of `_get_vectorstore`: reuse the cached store; otherwise raise if the
credential is missing, else connect. -/
def _get_vectorstore (apiKey : String) (cache : Option Unit) : Except String Unit :=
  match cache with
  | some _ => .ok ()
  | none => if apiKey = "" then .error pinecone_key_error else .ok ()

/-- Model of `query_pinecone`: obtain the store, then one similarity search (`sim`) for
`top_k` results. -/
def query_pinecone (sim : String → ℕ → List String) (apiKey : String) (cache : Option Unit)
    (query : String) (top_k : ℕ) : Except String (List String) :=
  match _get_vectorstore apiKey cache with
  | .error e => .error e
  | .ok _ => .ok (sim query top_k)

/-- Model of `handle_rag` (canva_rag.py lines 82-109): `top_k = len(set(queries))`,
comma-join the queries in order, one search. -/
def handle_rag (sim : String → ℕ → List String) (apiKey : String) (cache : Option Unit)
    (request_input : List String) : Except String (List String) :=
  query_pinecone sim apiKey cache (String.intercalate "," request_input) request_input.dedup.length

/-! ## controllers.py `create_canva_functions` and views.py `canvarequest` -/

/-- The external capabilities a pipeline run may call. -/
inductive Call where
  | planner
  | retrieval
  | agent
  | imageSearch
deriving DecidableEq

/-- The environment of one pipeline run: outcomes of the external
capabilities (OpenAI planner, Pinecone credential/cache/search, the agent's
final raw text, Pexels credential and per-query network outcome). -/
structure Oracles where
  planner : Except String StepBreakdown
  pineconeKey : String
  vsCache : Option Unit
  sim : String → ℕ → List String
  agentRaw : String
  pexelsKey : String
  pexelsNet : Json → NetOutcome

/-- The sanitized layout array must be a list of dicts to be iterated with
`"ref" in item`; anything else raises. -/
def toDicts : List Json → Option (List PyDict)
  | [] => some []
  | (Json.obj fs) :: rest => (toDicts rest).map (fs :: ·)
  | _ :: _ => none

/-- Model of `create_canva_functions` (controllers.py lines 118-192): planner, then
retrieval, then the agent loop, then sanitize, then asset resolution; the
second component records which external capabilities were actually invoked,
in order.  An uncaught Python exception is `.error`. -/
def create_canva_functions (o : Oracles) (page_dimensions card : Json) :
    Except String Json × List Call :=
  match o.planner with
  | .error e => (.error e, [.planner])
  | .ok sb =>
    match handle_rag o.sim o.pineconeKey o.vsCache sb.rag_query with
    | .error e => (.error e, [.planner])
    | .ok _docs =>
      match sanitize o.agentRaw.toList with
      | .error _ => (.error "Agent returned invalid JSON", [.planner, .retrieval, .agent])
      | .ok parsed =>
        match parsed with
        | Json.arr elems =>
          match toDicts elems with
          | none => (.error "TypeError", [.planner, .retrieval, .agent])
          | some dicts =>
            let trace : List Call :=
              if dicts.any (fun item => (lookupKey "ref" item).isSome) && !(o.pexelsKey == "")
              then [.planner, .retrieval, .agent, .imageSearch]
              else [.planner, .retrieval, .agent]
            match replace_images (fun old => search_pexels_image o.pexelsKey (o.pexelsNet old)) dicts with
            | .error e => (.error e, trace)
            | .ok out => (.ok (Json.arr (out.map Json.obj)), trace)
        | _ => (.error "TypeError", [.planner, .retrieval, .agent])

structure HttpResponse where
  status : ℕ
  body : Json

/-- Equality test Python performs between a string and an arbitrary value. -/
def eqStr (k : String) : Json → Bool
  | .str s => s == k
  | _ => false

/-- Python `k in v` (membership test), which may raise `TypeError`. -/
def pyContains (k : String) : Json → Except String Bool
  | .obj fs => .ok (lookupKey k fs).isSome
  | .arr xs => .ok (xs.any (eqStr k))
  | .str s => .ok (occurs k.data s.data)
  | _ => .error "TypeError"

/-- Python `v[k]` where an uncaught `KeyError`/`TypeError` escapes. -/
def pySubscript (v : Json) (k : String) : Except String Json :=
  match v with
  | .obj fs =>
    match lookupKey k fs with
    | some x => .ok x
    | none => .error "KeyError"
  | _ => .error "TypeError"

def jsonError (msg : String) : Json := .obj [("error", .str msg)]

/-- The 500 response produced by the outer `except Exception` handler. -/
def serverError (e : String) : HttpResponse :=
  ⟨500, Json.obj [("error", .str "Failed to process request"), ("detail", .str e)]⟩

/-- Model of `canvarequest` (views.py lines 21-100): parse the body, validate field
presence, then invoke the pipeline.  The second component is the external
calls issued. -/
def canvarequest (o : Oracles) (rawBody : String) : HttpResponse × List Call :=
  match parseTop rawBody.toList with
  | none => (⟨400, jsonError "Invalid JSON in request body"⟩, [])
  | some data =>
    match pyContains "card" data with
    | .error e => (serverError e, [])
    | .ok false => (⟨400, jsonError "Missing required field: card"⟩, [])
    | .ok true =>
      match pyContains "page_dimensions" data with
      | .error e => (serverError e, [])
      | .ok false => (⟨400, jsonError "Missing required field: page_dimensions"⟩, [])
      | .ok true =>
        match pySubscript data "card" with
        | .error e => (serverError e, [])
        | .ok card =>
          match card with
          | Json.obj cfs =>
            if (lookupKey "title" cfs).isSome && (lookupKey "description" cfs).isSome then
              (match pySubscript data "page_dimensions" with
              | .error e => (serverError e, [])
              | .ok wrapper =>
                match pyContains "dimensions" wrapper with
                | .error e => (serverError e, [])
                | .ok false => (⟨400, jsonError "page_dimensions must contain 'dimensions' field"⟩, [])
                | .ok true =>
                  match pySubscript wrapper "dimensions" with
                  | .error e => (serverError e, [])
                  | .ok pd =>
                    match pyContains "width" pd with
                    | .error e => (serverError e, [])
                    | .ok wOk =>
                      match pyContains "height" pd with
                      | .error e => (serverError e, [])
                      | .ok hOk =>
                        if wOk && hOk then
                          (match create_canva_functions o pd card with
                           | (.ok fns, trace) => (⟨200, fns⟩, trace)
                           | (.error e, trace) => (serverError e, trace))
                        else (⟨400, jsonError "dimensions must have 'width' and 'height' fields"⟩, []))
            else (⟨400, jsonError "card must have 'title' and 'description' fields"⟩, [])
          | _ => (⟨400, jsonError "card must have 'title' and 'description' fields"⟩, [])

/-! ## Support definitions for concrete scenarios -/

/-- A deterministic image-search capability used to probe `replace_images`:
searching for the URL substituted in a first pass yields a different URL. -/
def searchTwice : Json → Except String Json := fun v =>
  .ok (match v with
       | .str "sunset" => .str "urlA"
       | .str "urlA" => .str "urlB"
       | _ => .str "urlC")

/-- A deterministic similarity-search capability returning exactly the
requested number of fragments. -/
def simK (q : String) (k : ℕ) : List String := List.replicate k "doc"

/-- A concrete environment: planner capability down, no Pinecone credential,
no cached store, empty agent output, no Pexels credential. -/
def oStub : Oracles :=
  { planner := .error "planner down", pineconeKey := "", vsCache := none,
    sim := fun _ _ => [], agentRaw := "", pexelsKey := "", pexelsNet := fun _ => .reqError }

/-- A concrete environment in which every external capability succeeds up to
the retrieval stage. -/
def oRetrievalDown : Oracles :=
  { planner := .ok { steps := ["s"], rag_query := ["q"] }, pineconeKey := "", vsCache := none,
    sim := fun _ _ => [], agentRaw := "[]", pexelsKey := "", pexelsNet := fun _ => .reqError }

/-- A structurally well-formed request body whose page dimensions violate the
positivity invariant (width -5, height 0). -/
def negDimBody : String :=
  "\x7b\"card\": \x7b\"title\": \"t\", \"description\": \"d\"\x7d, \"page_dimensions\": \x7b\"dimensions\": \x7b\"width\": -5, \"height\": 0\x7d\x7d\x7d"

/-- A structurally well-formed request body with positive page dimensions. -/
def okBody : String :=
  "\x7b\"card\": \x7b\"title\": \"t\", \"description\": \"d\"\x7d, \"page_dimensions\": \x7b\"dimensions\": \x7b\"width\": 1280, \"height\": 720\x7d\x7d\x7d"

/-- The failure modes of the image-search capability enumerated by the spec:
missing credential, network/HTTP/JSON-decode error, empty (or absent) result
set, or a result object lacking the `src`/`medium` keys. -/
def pexelsFailure (apiKey : String) (net : NetOutcome) : Prop :=
  apiKey = "" ∨ net = .reqError ∨
  (∃ fs, net = .ok (.obj fs) ∧
    (lookupKey "photos" fs = none ∨ lookupKey "photos" fs = some (.arr []))) ∨
  (∃ fs rest p, net = .ok (.obj fs) ∧ lookupKey "photos" fs = some (.arr (p :: rest)) ∧
    ((∃ pfs, p = .obj pfs ∧ lookupKey "src" pfs = none) ∨
     (∃ pfs sfs, p = .obj pfs ∧ lookupKey "src" pfs = some (.obj sfs) ∧
       lookupKey "medium" sfs = none)))

/-! ## Claim C1: the estimator computes the documented formula -/

/-- C1: for every content string, box width > 0, font size > 0 and character
width factor, `estimate_pixels` returns exactly
`(font_size_px * 1.4) * num_lines + 1.1 * font_size_px` with
`font_size_px = font_size_pt * 96/72`,
`chars_per_line = box_width_px / (char_width_factor * font_size_px)` and
`num_lines = ceil (len content / chars_per_line)`; the embedded function is
pure. -/
theorem estimate_pixels_formula (content : String) (box_width_px font_size_pt mu : ℚ)
    (hw : 0 < box_width_px) (hf : 0 < font_size_pt) :
    estimate_pixels content box_width_px font_size_pt mu =
      (font_size_pt * (96 / 72) * 1.4) *
        ((⌈(content.length : ℚ) / (box_width_px / (mu * (font_size_pt * (96 / 72))))⌉ : ℤ) : ℚ) +
      1.1 * (font_size_pt * (96 / 72)) := rfl

/-- Witness for C1 at content `"hello world"`, width 500, size 12pt, factor 0.56. -/
theorem estimate_pixels_formula_witness :
    (0 : ℚ) < 500 ∧ (0 : ℚ) < 12 ∧
    estimate_pixels "hello world" 500 12 0.56 =
      (12 * (96 / 72) * 1.4) *
        ((⌈(("hello world".length : ℚ)) / (500 / (0.56 * (12 * (96 / 72))))⌉ : ℤ) : ℚ) +
      1.1 * (12 * (96 / 72)) :=
  ⟨by norm_num, by norm_num,
   estimate_pixels_formula "hello world" 500 12 0.56 (by norm_num) (by norm_num)⟩

/-! ## Claim C3: unparseable remainders fail loudly -/

/-- C3: whenever the fence-stripped remainder of the agent's raw text does not
parse as JSON, the sanitizer fails carrying the offending text (the text the
code surfaces in its error log when raising `ValueError`), and the result is
never coerced into an empty layout array. -/
theorem sanitize_fails_on_malformed (raw : List Char) (h : parseTop (clean raw) = none) :
    sanitize raw = .error (clean raw) ∧ sanitize raw ≠ .ok (Json.arr []) := by
  refine ⟨by simp [sanitize, h], ?_⟩
  simp [sanitize, h]

/-- Witness for C3 at a plain-prose agent reply. -/
theorem sanitize_fails_on_malformed_witness :
    parseTop (clean "I am sorry, I cannot help with that.".toList) = none ∧
    sanitize "I am sorry, I cannot help with that.".toList
      = .error (clean "I am sorry, I cannot help with that.".toList) ∧
    sanitize "I am sorry, I cannot help with that.".toList ≠ .ok (Json.arr []) :=
  ⟨rfl, (sanitize_fails_on_malformed "I am sorry, I cannot help with that.".toList rfl).1,
   (sanitize_fails_on_malformed "I am sorry, I cannot help with that.".toList rfl).2⟩

/-! ## Claim C4: idempotence of the asset resolver -/

/-- C4 counterexample: the resolver stores the substituted URL under the same
`ref` key, so rerunning it on the already-resolved array `[[ref ↦ urlA]]`
searches again with `urlA` as the query and yields `urlB`: rerunning is not a
no-op and the resolver is not idempotent. -/
theorem replace_images_not_idempotent :
    replace_images searchTwice [[("ref", Json.str "sunset")]] = .ok [[("ref", Json.str "urlA")]] ∧
    replace_images searchTwice [[("ref", Json.str "urlA")]] = .ok [[("ref", Json.str "urlB")]] ∧
    Json.str "urlB" ≠ Json.str "urlA" :=
  ⟨rfl, rfl, by simp⟩

/-- C4 (amended): the resolver is a no-op — and hence idempotent — on element
sequences in which no element carries a `ref` key; on elements with `ref` keys
a second run re-issues the search on the substituted values, so idempotence
holds only for search capabilities that are themselves idempotent. -/
theorem replace_images_noop_without_refs (search : Json → Except String Json)
    (l : List PyDict) (h : ∀ item ∈ l, lookupKey "ref" item = none) :
    replace_images search l = .ok l ∧
    (replace_images search l).bind (replace_images search) = replace_images search l := by
  have h1 : replace_images search l = .ok l := by
    induction l with
    | nil => rfl
    | cons item rest ih =>
      have hi : lookupKey "ref" item = none := h item (List.mem_cons_self item rest)
      have hr : replace_images search rest = .ok rest :=
        ih (fun x hx => h x (List.mem_cons_of_mem item hx))
      simp [replace_images, hi, hr, Except.map]
  refine ⟨h1, ?_⟩
  rw [h1]
  simpa [Except.bind] using h1

/-- Witness for the amended C4 on a one-element, `ref`-free layout. -/
theorem replace_images_noop_without_refs_witness :
    (∀ item ∈ [[("type", Json.str "text")]], lookupKey "ref" item = none) ∧
    (replace_images searchTwice [[("type", Json.str "text")]] = .ok [[("type", Json.str "text")]] ∧
     (replace_images searchTwice [[("type", Json.str "text")]]).bind (replace_images searchTwice)
       = replace_images searchTwice [[("type", Json.str "text")]]) := by
  have h : ∀ item ∈ [[("type", Json.str "text")]], lookupKey "ref" item = none := by
    intro item hi
    rw [List.mem_singleton] at hi
    subst hi
    rfl
  exact ⟨h, replace_images_noop_without_refs searchTwice [[("type", Json.str "text")]] h⟩

/-! ## Claim C5: graceful degradation of the image search -/

/-- C5: under every failure mode the spec enumerates for the image-search
capability (missing credential, request/HTTP/JSON error, empty result set,
missing `src`/`medium` keys), the search returns the fixed placeholder URL
without raising, and the resolver substitutes that placeholder for the value
of every element carrying a `ref` key. -/
theorem search_pexels_fallback (apiKey : String) (net : NetOutcome)
    (h : pexelsFailure apiKey net) :
    search_pexels_image apiKey net = .ok (.str pexels_placeholder) ∧
    ∀ (item : PyDict) (v : Json), lookupKey "ref" item = some v →
      replace_images (fun _ => search_pexels_image apiKey net) [item]
        = .ok [setKey "ref" (.str pexels_placeholder) item] := by
  have h1 : search_pexels_image apiKey net = .ok (.str pexels_placeholder) := by
    rcases h with hk | hn | ⟨fs, hn, hp⟩ | ⟨fs, rest, p, hn, hp, hsrc⟩
    · simp [search_pexels_image, hk]
    · subst hn
      by_cases hk : apiKey = "" <;> simp [search_pexels_image, hk]
    · subst hn
      by_cases hk : apiKey = ""
      · simp [search_pexels_image, hk]
      · rcases hp with hp | hp <;> simp [search_pexels_image, hk, hp, pyTruthy]
    · subst hn
      by_cases hk : apiKey = ""
      · simp [search_pexels_image, hk]
      · rcases hsrc with ⟨pfs, hpe, hs⟩ | ⟨pfs, sfs, hpe, hs, hm⟩
        · subst hpe
          simp [search_pexels_image, hk, hp, pyTruthy, getItemZero, getItemKey, hs]
        · subst hpe
          simp [search_pexels_image, hk, hp, pyTruthy, getItemZero, getItemKey, hs, hm]
  refine ⟨h1, ?_⟩
  intro item v hv
  simp [replace_images, hv, h1, Except.map]

/-- Witness for C5: missing credential, element `{"ref": "sunset"}`. -/
theorem search_pexels_fallback_witness :
    pexelsFailure "" NetOutcome.reqError ∧
    search_pexels_image "" NetOutcome.reqError = .ok (.str pexels_placeholder) ∧
    replace_images (fun _ => search_pexels_image "" NetOutcome.reqError)
        [[("ref", Json.str "sunset")]]
      = .ok [setKey "ref" (.str pexels_placeholder) [("ref", Json.str "sunset")]] :=
  ⟨Or.inl rfl, (search_pexels_fallback "" NetOutcome.reqError (Or.inl rfl)).1,
   (search_pexels_fallback "" NetOutcome.reqError (Or.inl rfl)).2
     [("ref", Json.str "sunset")] (Json.str "sunset") rfl⟩

/-! ## Claim C6: retrieval fetches one search with a distinct-count top-k -/

/-- C6: `handle_rag` computes `top_k` as the number of distinct queries, joins
all queries in order with commas into one composite search string, issues a
single similarity search for `top_k` results, and (for a search capability
returning at most the requested count) returns no more fragments than the
number of distinct queries. -/
theorem handle_rag_topk (sim : String → ℕ → List String) (apiKey : String)
    (cache : Option Unit) (qs : List String)
    (hvs : _get_vectorstore apiKey cache = .ok ())
    (hsim : ∀ q k, (sim q k).length ≤ k) :
    handle_rag sim apiKey cache qs = .ok (sim (String.intercalate "," qs) qs.dedup.length) ∧
    ∀ docs, handle_rag sim apiKey cache qs = .ok docs → docs.length ≤ qs.dedup.length := by
  have h1 : handle_rag sim apiKey cache qs
      = .ok (sim (String.intercalate "," qs) qs.dedup.length) := by
    simp [handle_rag, query_pinecone, hvs]
  refine ⟨h1, ?_⟩
  intro docs hd
  rw [h1] at hd
  obtain rfl : sim (String.intercalate "," qs) qs.dedup.length = docs := Except.ok.inj hd
  exact hsim _ _

/-- Witness for C6 with duplicate queries and a search returning exactly the
requested count. -/
theorem handle_rag_topk_witness :
    _get_vectorstore "k" none = .ok () ∧
    (∀ q k, (simK q k).length ≤ k) ∧
    (handle_rag simK "k" none ["a", "b", "a"]
       = .ok (simK (String.intercalate "," ["a", "b", "a"]) (["a", "b", "a"].dedup.length)) ∧
     ∀ docs, handle_rag simK "k" none ["a", "b", "a"] = .ok docs →
       docs.length ≤ ["a", "b", "a"].dedup.length) :=
  ⟨rfl, fun q k => by simp [simK],
   handle_rag_topk simK "k" none ["a", "b", "a"] rfl (fun q k => by simp [simK])⟩

/-! ## Claim C7: a missing retrieval credential fails the run before the agent -/

/-- C7: when the Pinecone credential is missing and no store is cached, the
pipeline fails with the retrieval-unavailable error, the error propagates to
the HTTP caller in the 500 response's `detail`, and the Layout Agent is never
invoked in such a run. -/
theorem retrieval_unavailable_stops_pipeline (o : Oracles) (sb : StepBreakdown)
    (pd card : Json) (hp : o.planner = .ok sb) (hkey : o.pineconeKey = "")
    (hcache : o.vsCache = none) :
    create_canva_functions o pd card = (.error pinecone_key_error, [Call.planner]) ∧
    Call.agent ∉ (create_canva_functions o pd card).2 ∧
    ∀ (rawBody : String) (body cfs wfs dfs : PyDict) (tv dv wv hv : Json),
      parseTop rawBody.toList = some (.obj body) →
      lookupKey "card" body = some (.obj cfs) →
      lookupKey "title" cfs = some tv →
      lookupKey "description" cfs = some dv →
      lookupKey "page_dimensions" body = some (.obj wfs) →
      lookupKey "dimensions" wfs = some (.obj dfs) →
      lookupKey "width" dfs = some wv →
      lookupKey "height" dfs = some hv →
      canvarequest o rawBody = (serverError pinecone_key_error, [Call.planner]) := by
  have hgen : ∀ pd' card' : Json,
      create_canva_functions o pd' card' = (.error pinecone_key_error, [Call.planner]) := by
    intro pd' card'
    simp [create_canva_functions, hp, handle_rag, query_pinecone, _get_vectorstore, hkey, hcache]
  refine ⟨hgen pd card, ?_, ?_⟩
  · rw [hgen pd card]
    simp
  · intro rawBody body cfs wfs dfs tv dv wv hv hb hc ht hd hw hdim hwv hhv
    have hb' : parseTop rawBody.data = some (Json.obj body) := hb
    simp [canvarequest, hb', pyContains, hc, ht, hd, hw, hdim, hwv, hhv,
      pySubscript, hgen, Option.isSome]

/-- Witness for C7: the concrete environment `oRetrievalDown` and the valid
request body `okBody`. -/
theorem retrieval_unavailable_stops_pipeline_witness :
    oRetrievalDown.planner = .ok { steps := ["s"], rag_query := ["q"] } ∧
    oRetrievalDown.pineconeKey = "" ∧ oRetrievalDown.vsCache = none ∧
    (create_canva_functions oRetrievalDown .null .null
        = (.error pinecone_key_error, [Call.planner]) ∧
     Call.agent ∉ (create_canva_functions oRetrievalDown .null .null).2 ∧
     canvarequest oRetrievalDown okBody = (serverError pinecone_key_error, [Call.planner])) := by
  have h := retrieval_unavailable_stops_pipeline oRetrievalDown
    { steps := ["s"], rag_query := ["q"] } .null .null rfl rfl rfl
  exact ⟨rfl, rfl, rfl, h.1, h.2.1,
    h.2.2 okBody
      [("card", .obj [("title", .str "t"), ("description", .str "d")]),
       ("page_dimensions", .obj [("dimensions",
          .obj [("width", .num 1280), ("height", .num 720)])])]
      [("title", .str "t"), ("description", .str "d")]
      [("dimensions", .obj [("width", .num 1280), ("height", .num 720)])]
      [("width", .num 1280), ("height", .num 720)]
      (.str "t") (.str "d") (.num 1280) (.num 720)
      rfl rfl rfl rfl rfl rfl rfl rfl⟩

/-! ## Claim C9: request validation is structural only -/

/-- C9 counterexample: a request whose page dimensions are width -5 and
height 0 — violating the positivity invariant — is not rejected: validation
passes and the planner capability is invoked (the trace is nonempty), so the
pipeline does not reject malformed dimensions before external calls. -/
theorem canvarequest_skips_dimension_validation :
    parseTop negDimBody.toList
      = some (.obj [("card", .obj [("title", .str "t"), ("description", .str "d")]),
                    ("page_dimensions", .obj [("dimensions",
                       .obj [("width", .num (-5)), ("height", .num 0)])])]) ∧
    (canvarequest oStub negDimBody).2 = [Call.planner] ∧
    (canvarequest oStub negDimBody).1.status = 500 ∧
    ¬ (0 : ℚ) < -5 :=
  ⟨rfl, rfl, rfl, by norm_num⟩

/-- C9 (amended): requests whose body is not valid JSON, or lacks the `card`
or `page_dimensions` fields, or whose card is not an object carrying `title`
and `description`, or whose `page_dimensions` object lacks `dimensions`, or
whose dimensions object lacks `width` or `height`, are rejected with a 400
error before any external call; the values of `width` and `height` (in
particular their positivity) are not validated. -/
theorem canvarequest_structural_validation (o : Oracles) :
    (∀ raw : String, parseTop raw.data = none →
      canvarequest o raw = (⟨400, jsonError "Invalid JSON in request body"⟩, [])) ∧
    (∀ (raw : String) (fs : PyDict), parseTop raw.data = some (.obj fs) →
      lookupKey "card" fs = none →
      canvarequest o raw = (⟨400, jsonError "Missing required field: card"⟩, [])) ∧
    (∀ (raw : String) (fs : PyDict) (c : Json), parseTop raw.data = some (.obj fs) →
      lookupKey "card" fs = some c → lookupKey "page_dimensions" fs = none →
      canvarequest o raw = (⟨400, jsonError "Missing required field: page_dimensions"⟩, [])) ∧
    (∀ (raw : String) (fs : PyDict) (c w : Json), parseTop raw.data = some (.obj fs) →
      lookupKey "card" fs = some c → lookupKey "page_dimensions" fs = some w →
      (∀ cfs : PyDict, c = .obj cfs →
        lookupKey "title" cfs = none ∨ lookupKey "description" cfs = none) →
      canvarequest o raw = (⟨400, jsonError "card must have 'title' and 'description' fields"⟩, [])) ∧
    (∀ (raw : String) (fs cfs wfs : PyDict) (tv dv : Json),
      parseTop raw.data = some (.obj fs) →
      lookupKey "card" fs = some (.obj cfs) →
      lookupKey "title" cfs = some tv → lookupKey "description" cfs = some dv →
      lookupKey "page_dimensions" fs = some (.obj wfs) →
      lookupKey "dimensions" wfs = none →
      canvarequest o raw
        = (⟨400, jsonError "page_dimensions must contain 'dimensions' field"⟩, [])) ∧
    (∀ (raw : String) (fs cfs wfs dfs : PyDict) (tv dv : Json),
      parseTop raw.data = some (.obj fs) →
      lookupKey "card" fs = some (.obj cfs) →
      lookupKey "title" cfs = some tv → lookupKey "description" cfs = some dv →
      lookupKey "page_dimensions" fs = some (.obj wfs) →
      lookupKey "dimensions" wfs = some (.obj dfs) →
      (lookupKey "width" dfs = none ∨ lookupKey "height" dfs = none) →
      canvarequest o raw
        = (⟨400, jsonError "dimensions must have 'width' and 'height' fields"⟩, [])) := by
  refine ⟨?_, ?_, ?_, ?_, ?_, ?_⟩
  · intro raw hp
    simp [canvarequest, hp]
  · intro raw fs hp hc
    simp [canvarequest, hp, pyContains, hc]
  · intro raw fs c hp hc hw
    simp [canvarequest, hp, pyContains, hc, hw]
  · intro raw fs c w hp hc hw hbad
    rcases c with _ | b | q | s | xs | cfs
    · simp [canvarequest, hp, pyContains, hc, hw, pySubscript]
    · simp [canvarequest, hp, pyContains, hc, hw, pySubscript]
    · simp [canvarequest, hp, pyContains, hc, hw, pySubscript]
    · simp [canvarequest, hp, pyContains, hc, hw, pySubscript]
    · simp [canvarequest, hp, pyContains, hc, hw, pySubscript]
    · rcases hbad cfs rfl with hb | hb <;>
        simp [canvarequest, hp, pyContains, hc, hw, pySubscript, hb]
  · intro raw fs cfs wfs tv dv hp hc ht hd hw hdim
    simp [canvarequest, hp, pyContains, hc, ht, hd, hw, hdim, pySubscript]
  · intro raw fs cfs wfs dfs tv dv hp hc ht hd hw hdim hwh
    rcases hwh with hwh | hwh <;>
      simp [canvarequest, hp, pyContains, hc, ht, hd, hw, hdim, hwh, pySubscript]

/-- Witness for the amended C9: a body lacking the `card` field is rejected
with a 400 and no external call. -/
theorem canvarequest_structural_validation_witness :
    parseTop "\x7b\"page_dimensions\": \x7b\x7d\x7d".data = some (.obj [("page_dimensions", .obj [])]) ∧
    lookupKey "card" [("page_dimensions", Json.obj [])] = none ∧
    canvarequest oStub "\x7b\"page_dimensions\": \x7b\x7d\x7d"
      = (⟨400, jsonError "Missing required field: card"⟩, []) :=
  ⟨rfl, rfl,
   (canvarequest_structural_validation oStub).2.1 "\x7b\"page_dimensions\": \x7b\x7d\x7d"
     [("page_dimensions", .obj [])] rfl rfl⟩

/-! ## Claim C10: the resolver is a per-element frame transformation -/

/-- Keys (with their order) are unchanged by `setKey`. -/
theorem setKey_map_fst (k : String) (v : Json) (item : PyDict) :
    (setKey k v item).map Prod.fst = item.map Prod.fst := by
  induction item with
  | nil => rfl
  | cons hd tl ih =>
    obtain ⟨k₀, v₀⟩ := hd
    by_cases hk : k₀ = k <;> simp [setKey, hk, ih]

/-- Lookups at other keys are unchanged by `setKey`. -/
theorem lookupKey_setKey_ne (k k' : String) (v : Json) (item : PyDict) (h : k' ≠ k) :
    lookupKey k' (setKey k v item) = lookupKey k' item := by
  induction item with
  | nil => rfl
  | cons hd tl ih =>
    obtain ⟨k₀, v₀⟩ := hd
    by_cases hk : k₀ = k
    · subst hk
      have hne : ¬ k₀ = k' := fun hc => h (hc ▸ rfl)
      simp [setKey, lookupKey, hne]
    · by_cases hk' : k₀ = k' <;> simp [setKey, lookupKey, hk, hk', ih, h]

/-- A present key looks up to the newly assigned value after `setKey`. -/
theorem lookupKey_setKey_self (k : String) (v : Json) (item : PyDict)
    (h : (lookupKey k item).isSome) :
    lookupKey k (setKey k v item) = some v := by
  induction item with
  | nil => simp [lookupKey] at h
  | cons hd tl ih =>
    obtain ⟨k₀, v₀⟩ := hd
    by_cases hk : k₀ = k
    · simp [setKey, lookupKey, hk]
    · simp [setKey, lookupKey, hk] at h ⊢
      exact ih h

/-- C10: on success the resolver preserves the length and order of the input
list; every element without a `ref` key passes through unchanged; and every
element with a `ref` key is replaced by the same element with only the value
under `ref` reassigned in place — its key sequence is identical and every
other key looks up to the same value. -/
theorem replace_images_frame (search : Json → Except String Json) (l out : List PyDict)
    (h : replace_images search l = .ok out) :
    out.length = l.length ∧
    ∀ (i : ℕ) (item : PyDict), l[i]? = some item →
      (lookupKey "ref" item = none → out[i]? = some item) ∧
      (∀ v, lookupKey "ref" item = some v →
        ∃ u, search v = .ok u ∧ out[i]? = some (setKey "ref" u item) ∧
          (setKey "ref" u item).map Prod.fst = item.map Prod.fst ∧
          lookupKey "ref" (setKey "ref" u item) = some u ∧
          ∀ k, k ≠ "ref" → lookupKey k (setKey "ref" u item) = lookupKey k item) := by
  induction l generalizing out with
  | nil =>
    obtain rfl : ([] : List PyDict) = out := by
      simpa [replace_images] using h
    refine ⟨rfl, ?_⟩
    intro i item hi
    simp at hi
  | cons item rest ih =>
    rcases href : lookupKey "ref" item with _ | old
    · simp only [replace_images, href] at h
      rcases hr : replace_images search rest with e | out'
      · rw [hr] at h
        simp [Except.map] at h
      · rw [hr] at h
        obtain rfl : item :: out' = out := by
          simpa [Except.map] using h
        obtain ⟨hlen, hidx⟩ := ih out' hr
        refine ⟨by simp [hlen], ?_⟩
        intro i itm hi
        cases i with
        | zero =>
          obtain rfl : item = itm := by simpa using hi
          refine ⟨fun _ => by simp, fun v hv => ?_⟩
          rw [href] at hv
          cases hv
        | succ n =>
          simp only [List.getElem?_cons_succ] at hi ⊢
          exact hidx n itm hi
    · simp only [replace_images, href] at h
      rcases hs : search old with e | u
      · rw [hs] at h
        simp [Except.map] at h
      · rw [hs] at h
        rcases hr : replace_images search rest with e | out'
        · rw [hr] at h
          simp [Except.map] at h
        · rw [hr] at h
          obtain rfl : setKey "ref" u item :: out' = out := by
            simpa [Except.map] using h
          obtain ⟨hlen, hidx⟩ := ih out' hr
          refine ⟨by simp [hlen], ?_⟩
          intro i itm hi
          cases i with
          | zero =>
            obtain rfl : item = itm := by simpa using hi
            refine ⟨fun hn => ?_, fun v hv => ?_⟩
            · rw [href] at hn
              cases hn
            · obtain rfl : old = v := by
                rw [href] at hv
                exact Option.some.inj hv
              refine ⟨u, hs, by simp, setKey_map_fst _ _ _, ?_, ?_⟩
              · exact lookupKey_setKey_self _ _ _ (by simp [href])
              · intro k hk
                exact lookupKey_setKey_ne _ _ _ _ hk
          | succ n =>
            simp only [List.getElem?_cons_succ] at hi ⊢
            exact hidx n itm hi

/-- Witness for C10 on a two-element layout with one `ref`. -/
theorem replace_images_frame_witness :
    replace_images searchTwice
        [[("type", Json.str "image"), ("ref", Json.str "sunset")], [("type", Json.str "text")]]
      = .ok [[("type", Json.str "image"), ("ref", Json.str "urlA")], [("type", Json.str "text")]] ∧
    ([[("type", Json.str "image"), ("ref", Json.str "urlA")],
      [("type", Json.str "text")]].length
        = [[("type", Json.str "image"), ("ref", Json.str "sunset")],
           [("type", Json.str "text")]].length ∧
     ∀ (i : ℕ) (item : PyDict),
       [[("type", Json.str "image"), ("ref", Json.str "sunset")],
        [("type", Json.str "text")]][i]? = some item →
       (lookupKey "ref" item = none →
         [[("type", Json.str "image"), ("ref", Json.str "urlA")],
          [("type", Json.str "text")]][i]? = some item) ∧
       (∀ v, lookupKey "ref" item = some v →
         ∃ u, searchTwice v = .ok u ∧
           [[("type", Json.str "image"), ("ref", Json.str "urlA")],
            [("type", Json.str "text")]][i]? = some (setKey "ref" u item) ∧
           (setKey "ref" u item).map Prod.fst = item.map Prod.fst ∧
           lookupKey "ref" (setKey "ref" u item) = some u ∧
           ∀ k, k ≠ "ref" → lookupKey k (setKey "ref" u item) = lookupKey k item)) :=
  ⟨rfl, replace_images_frame searchTwice _ _ rfl⟩

/-! ## Claim C8: monotonicity and the padding lower bound of the estimator -/

/-- C8: for box width > 0 and font size > 0, `estimate_pixels` is
monotonically non-decreasing in the content length and in the font size, and
every single-line input (`num_lines = 1`) returns at least the padding term
`1.1 * font_size_px`.  The character-width factor is any positive value; the
code's default 0.56 is the instance the witness uses. -/
theorem estimate_pixels_monotone (c c' : String) (w f f' mu : ℚ)
    (hw : 0 < w) (hf : 0 < f) (hmu : 0 < mu) :
    (c.length ≤ c'.length → estimate_pixels c w f mu ≤ estimate_pixels c' w f mu) ∧
    (f ≤ f' → estimate_pixels c w f mu ≤ estimate_pixels c w f' mu) ∧
    (⌈(c.length : ℚ) / (w / (mu * (f * (96 / 72))))⌉ = 1 →
      1.1 * (f * (96 / 72)) ≤ estimate_pixels c w f mu) := by
  have h96 : (0 : ℚ) < 96 / 72 := by norm_num
  have hfpx : 0 < f * (96 / 72) := mul_pos hf h96
  have hd : 0 < w / (mu * (f * (96 / 72))) := div_pos hw (mul_pos hmu hfpx)
  have hA : (0 : ℚ) ≤ f * (96 / 72) * 1.4 := by positivity
  refine ⟨?_, ?_, ?_⟩
  · intro hlen
    simp only [estimate_pixels]
    have harg : (c.length : ℚ) / (w / (mu * (f * (96 / 72))))
        ≤ (c'.length : ℚ) / (w / (mu * (f * (96 / 72)))) :=
      (div_le_div_iff_of_pos_right hd).mpr (by exact_mod_cast hlen)
    have hceil : ((⌈(c.length : ℚ) / (w / (mu * (f * (96 / 72))))⌉ : ℤ) : ℚ)
        ≤ ((⌈(c'.length : ℚ) / (w / (mu * (f * (96 / 72))))⌉ : ℤ) : ℚ) := by
      exact_mod_cast Int.ceil_mono harg
    have := mul_le_mul_of_nonneg_left hceil hA
    linarith
  · intro hff'
    simp only [estimate_pixels]
    have hf' : 0 < f' := lt_of_lt_of_le hf hff'
    have hfpxle : f * (96 / 72) ≤ f' * (96 / 72) :=
      mul_le_mul_of_nonneg_right hff' (le_of_lt h96)
    have hargle : (c.length : ℚ) / (w / (mu * (f * (96 / 72))))
        ≤ (c.length : ℚ) / (w / (mu * (f' * (96 / 72)))) := by
      rw [div_div_eq_mul_div, div_div_eq_mul_div]
      apply (div_le_div_iff_of_pos_right hw).mpr
      apply mul_le_mul_of_nonneg_left _ (Nat.cast_nonneg _)
      exact mul_le_mul_of_nonneg_left hfpxle (le_of_lt hmu)
    have hceil0 : (0 : ℤ) ≤ ⌈(c.length : ℚ) / (w / (mu * (f * (96 / 72))))⌉ :=
      Int.ceil_nonneg (by positivity)
    have hceille : ((⌈(c.length : ℚ) / (w / (mu * (f * (96 / 72))))⌉ : ℤ) : ℚ)
        ≤ ((⌈(c.length : ℚ) / (w / (mu * (f' * (96 / 72))))⌉ : ℤ) : ℚ) := by
      exact_mod_cast Int.ceil_mono hargle
    have hA' : f * (96 / 72) * 1.4 ≤ f' * (96 / 72) * 1.4 :=
      mul_le_mul_of_nonneg_right hfpxle (by norm_num)
    have hmul : (f * (96 / 72) * 1.4) * ((⌈(c.length : ℚ) / (w / (mu * (f * (96 / 72))))⌉ : ℤ) : ℚ)
        ≤ (f' * (96 / 72) * 1.4) * ((⌈(c.length : ℚ) / (w / (mu * (f' * (96 / 72))))⌉ : ℤ) : ℚ) :=
      mul_le_mul hA' hceille (by exact_mod_cast hceil0) (by positivity)
    have hpad : 1.1 * (f * (96 / 72)) ≤ 1.1 * (f' * (96 / 72)) :=
      mul_le_mul_of_nonneg_left hfpxle (by norm_num)
    linarith
  · intro h1
    simp only [estimate_pixels]
    rw [h1]
    push_cast
    linarith

/-- Witness for C8 at width 500, sizes 12 ≤ 14, the default factor 0.56, and
contents of lengths 2 and 4: all hypotheses — the positivity side conditions
and the inner ones (content-length ordering, font ordering, a single-line
input) — are discharged at these concrete inputs, yielding the concrete
monotonicity and padding facts. -/
theorem estimate_pixels_monotone_witness :
    (0 : ℚ) < 500 ∧ (0 : ℚ) < 12 ∧ (0 : ℚ) < 0.56 ∧
    "ab".length ≤ "abcd".length ∧ (12 : ℚ) ≤ 14 ∧
    ⌈(("ab".length : ℚ)) / (500 / (0.56 * (12 * (96 / 72))))⌉ = 1 ∧
    estimate_pixels "ab" 500 12 0.56 ≤ estimate_pixels "abcd" 500 12 0.56 ∧
    estimate_pixels "ab" 500 12 0.56 ≤ estimate_pixels "ab" 500 14 0.56 ∧
    1.1 * (12 * (96 / 72)) ≤ estimate_pixels "ab" 500 12 0.56 := by
  have h := estimate_pixels_monotone "ab" "abcd" 500 12 14 0.56
    (by norm_num) (by norm_num) (by norm_num)
  have hlen : "ab".length ≤ "abcd".length := by decide
  have hff : (12 : ℚ) ≤ 14 := by norm_num
  have hceil : ⌈(("ab".length : ℚ)) / (500 / (0.56 * (12 * (96 / 72))))⌉ = 1 := by
    norm_num [show ("ab".length = 2) from rfl, Int.ceil_eq_iff]
  exact ⟨by norm_num, by norm_num, by norm_num, hlen, hff, hceil,
    h.1 hlen, h.2.1 hff, h.2.2 hceil⟩

/-! ## Claim C2: lemmas about fence stripping -/

/-- A match of a longer pattern is a match of its left part. -/
theorem headMatch_append_left (a b s : List Char) (h : headMatch (a ++ b) s = true) :
    headMatch a s = true := by
  induction a generalizing s with
  | nil => rfl
  | cons p ps ih =>
    cases s with
    | nil => simp [headMatch] at h
    | cons c cs =>
      simp [headMatch] at h ⊢
      exact ⟨h.1, ih cs h.2⟩

/-- If the three-backtick delimiter does not match at the head of `c :: u`, it
does not match there after appending a newline-led suffix: a match crossing
the junction would have to match a backtick against the newline. -/
theorem headMatch_ticks_junction (c : Char) (u w : List Char)
    (h : headMatch fenceTicks (c :: u) = false) :
    headMatch fenceTicks (c :: (u ++ '\n' :: w)) = false := by
  rcases u with _ | ⟨a, _ | ⟨b, u2⟩⟩
  · simp [fenceTicks, headMatch, show (tick == '\n') = false from by decide]
  · simp [fenceTicks, headMatch, show (tick == '\n') = false from by decide]
  · simp only [fenceTicks, headMatch, List.cons_append] at h ⊢
    simpa using h

/-- Python `str.replace` leaves a string without occurrences of the pattern intact. -/
theorem replaceF_no_occurrence (p : Char) (ps repl : List Char) (f : ℕ) (s : List Char)
    (hf : s.length ≤ f) (h : occurs (p :: ps) s = false) :
    replaceF p ps repl f s = s := by
  induction s generalizing f with
  | nil => cases f <;> rfl
  | cons c rest ih =>
    cases f with
    | zero => simp at hf
    | succ f1 =>
      simp only [occurs, Bool.or_eq_false_iff] at h
      have hrest : replaceF p ps repl f1 rest = rest := by
        apply ih f1 _ h.2
        simp at hf
        omega
      simp [replaceF, h.1, hrest]

/-- The tagged opener cannot match across the newline junction either. -/
theorem headMatch_fenceJson_junction (c : Char) (u w : List Char)
    (h : headMatch fenceTicks (c :: u) = false) :
    headMatch fenceJsonTag (c :: (u ++ '\n' :: w)) = false := by
  cases hj : headMatch fenceJsonTag (c :: (u ++ '\n' :: w)) with
  | false => rfl
  | true =>
    have h3 : headMatch fenceTicks (c :: (u ++ '\n' :: w)) = true :=
      headMatch_append_left fenceTicks ['j', 's', 'o', 'n'] _ hj
    rw [headMatch_ticks_junction c u w h] at h3
    cases h3

/-- If `u` contains no three-backtick run, appending the closing fence adds no
occurrence of the tagged opener (the closing fence is not followed by `json`). -/
theorem occurs_fenceJson (u : List Char) (h : occurs fenceTicks u = false) :
    occurs fenceJsonTag (u ++ '\n' :: fenceTicks) = false := by
  induction u with
  | nil => decide
  | cons c u' ih =>
    simp only [occurs, Bool.or_eq_false_iff] at h
    simp only [List.cons_append, occurs, Bool.or_eq_false_iff]
    exact ⟨headMatch_fenceJson_junction c u' fenceTicks h.1, ih h.2⟩

/-- Replacing the bare delimiter in `u ++ "\n` ``"` removes exactly the closing
fence when `u` itself contains no three-backtick run. -/
theorem replaceF_strip_closing (u : List Char) (f : ℕ) (hf : u.length + 4 ≤ f)
    (h : occurs fenceTicks u = false) :
    replaceF tick [tick, tick] [] f (u ++ '\n' :: fenceTicks) = u ++ ['\n'] := by
  induction u generalizing f with
  | nil =>
    obtain ⟨f2, rfl⟩ : ∃ k, f = k + 2 := ⟨f - 2, by omega⟩
    show replaceF tick [tick, tick] [] (f2 + 2) ('\n' :: fenceTicks) = ['\n']
    simp [replaceF, fenceTicks, headMatch, show (tick == '\n') = false from by decide]
  | cons c u' ih =>
    obtain ⟨f1, rfl⟩ : ∃ k, f = k + 1 := ⟨f - 1, by omega⟩
    simp only [occurs, Bool.or_eq_false_iff] at h
    have hj : headMatch (tick :: [tick, tick]) (c :: (u' ++ '\n' :: fenceTicks)) = false :=
      headMatch_ticks_junction c u' fenceTicks h.1
    have hrec : replaceF tick [tick, tick] [] f1 (u' ++ '\n' :: fenceTicks) = u' ++ ['\n'] := by
      apply ih f1 _ h.2
      simp at hf
      omega
    have hj2 : headMatch [tick, tick, tick] (c :: u'.append ('\n' :: fenceTicks)) = false := hj
    have hrec2 : replaceF tick [tick, tick] [] f1 (u'.append ('\n' :: fenceTicks)) = u' ++ ['\n'] :=
      hrec
    simp only [List.cons_append, replaceF, hj2, Bool.false_eq_true, if_false, hrec2]

/-- A string equal to its own `strip` has no surrounding whitespace on either
side. -/
theorem pyStrip_eq_self_parts (s : List Char) (h : pyStrip s = s) :
    s.dropWhile isPyWs = s ∧ s.reverse.dropWhile isPyWs = s.reverse := by
  have hlenB : ((s.dropWhile isPyWs).reverse.dropWhile isPyWs).reverse.length = s.length := by
    have := congrArg List.length h
    simpa [pyStrip] using this
  have h1 : (s.dropWhile isPyWs).length ≤ s.length :=
    (List.dropWhile_suffix (l := s) isPyWs).length_le
  have h2 : ((s.dropWhile isPyWs).reverse.dropWhile isPyWs).length
      ≤ (s.dropWhile isPyWs).length := by
    simpa using (List.dropWhile_suffix (l := (s.dropWhile isPyWs).reverse) isPyWs).length_le
  have heq1 : (s.dropWhile isPyWs).length = s.length := by
    simp at hlenB
    omega
  have hA : s.dropWhile isPyWs = s :=
    (List.dropWhile_suffix (l := s) isPyWs).eq_of_length heq1
  refine ⟨hA, ?_⟩
  rw [hA] at hlenB
  have heq2 : (s.reverse.dropWhile isPyWs).length = s.reverse.length := by
    simp at hlenB ⊢
    omega
  exact (List.dropWhile_suffix (l := s.reverse) isPyWs).eq_of_length heq2

/-- Stripping a whitespace-free string wrapped in single newlines recovers it. -/
theorem pyStrip_wrap (s : List Char) (h : pyStrip s = s) :
    pyStrip ('\n' :: (s ++ ['\n'])) = s := by
  obtain ⟨hA, hB⟩ := pyStrip_eq_self_parts s h
  rcases s with _ | ⟨c, s'⟩
  · decide
  · have hc : isPyWs c = false := by
      by_cases hc : isPyWs c
      · rw [List.dropWhile_cons, if_pos hc] at hA
        have hle := (List.dropWhile_suffix (l := s') isPyWs).length_le
        have hlen := congrArg List.length hA
        simp at hlen
        omega
      · simpa using hc
    have hfront : ('\n' :: ((c :: s') ++ ['\n'])).dropWhile isPyWs = (c :: s') ++ ['\n'] := by
      rw [List.dropWhile_cons, if_pos (by decide)]
      rw [List.cons_append, List.dropWhile_cons, if_neg (by simp [hc])]
    have hback : (((c :: s') ++ ['\n']).reverse).dropWhile isPyWs = (c :: s').reverse := by
      rw [List.reverse_append, List.reverse_singleton, List.singleton_append]
      rw [List.dropWhile_cons, if_pos (by decide)]
      exact hB
    show ((('\n' :: ((c :: s') ++ ['\n'])).dropWhile isPyWs).reverse.dropWhile isPyWs).reverse
        = c :: s'
    rw [hfront, hback, List.reverse_reverse]

/-- First step of replacing the tagged opener at the head of the input. -/
theorem replaceF_json_head (f : ℕ) (X : List Char) :
    replaceF tick [tick, tick, 'j', 's', 'o', 'n'] [] (f + 1)
        (tick :: tick :: tick :: 'j' :: 's' :: 'o' :: 'n' :: X)
      = replaceF tick [tick, tick, 'j', 's', 'o', 'n'] [] f X := by
  simp [replaceF, headMatch, List.drop]

/-- First step of replacing the bare delimiter at the head of the input. -/
theorem replaceF_ticks_head (f : ℕ) (X : List Char) :
    replaceF tick [tick, tick] [] (f + 1) (tick :: tick :: tick :: X)
      = replaceF tick [tick, tick] [] f X := by
  simp [replaceF, headMatch, List.drop]

/-- Replacing the tagged opener in the `json`-tagged wrapping strips exactly
that opener. -/
theorem replaceJson_wrapA (s : List Char) (hfence : occurs fenceTicks s = false) :
    pyReplace tick [tick, tick, 'j', 's', 'o', 'n'] []
        (fenceJsonTag ++ '\n' :: (s ++ '\n' :: fenceTicks))
      = '\n' :: (s ++ '\n' :: fenceTicks) := by
  have htick0 : occurs fenceTicks ('\n' :: s) = false := by
    simp only [occurs, Bool.or_eq_false_iff]
    exact ⟨rfl, hfence⟩
  have hlen : (fenceJsonTag ++ '\n' :: (s ++ '\n' :: fenceTicks)).length = s.length + 12 := by
    simp only [fenceJsonTag, fenceTicks, List.length_append, List.length_cons, List.length_nil]
    try omega
  show replaceF tick [tick, tick, 'j', 's', 'o', 'n'] []
      ((fenceJsonTag ++ '\n' :: (s ++ '\n' :: fenceTicks)).length)
      (fenceJsonTag ++ '\n' :: (s ++ '\n' :: fenceTicks))
      = '\n' :: (s ++ '\n' :: fenceTicks)
  rw [hlen]
  show replaceF tick [tick, tick, 'j', 's', 'o', 'n'] [] ((s.length + 11) + 1)
      (tick :: tick :: tick :: 'j' :: 's' :: 'o' :: 'n' :: ('\n' :: (s ++ '\n' :: fenceTicks)))
      = '\n' :: (s ++ '\n' :: fenceTicks)
  rw [replaceF_json_head]
  apply replaceF_no_occurrence
  · simp only [fenceTicks, List.length_append, List.length_cons, List.length_nil]
    try omega
  · have h5 := occurs_fenceJson ('\n' :: s) htick0
    simpa using h5

/-- The fence stripping of the `json`-tagged wrapping recovers the wrapped
text exactly. -/
theorem clean_wrapA (s : List Char) (hfence : occurs fenceTicks s = false)
    (hstrip : pyStrip s = s) :
    clean (fenceJsonTag ++ '\n' :: (s ++ '\n' :: fenceTicks)) = s := by
  have htick0 : occurs fenceTicks ('\n' :: s) = false := by
    simp only [occurs, Bool.or_eq_false_iff]
    exact ⟨rfl, hfence⟩
  have hocc : occurs fenceTicks (fenceJsonTag ++ '\n' :: (s ++ '\n' :: fenceTicks)) = true := rfl
  simp only [clean, hocc, if_true]
  rw [replaceJson_wrapA s hfence]
  have h3 : pyReplace tick [tick, tick] [] ('\n' :: (s ++ '\n' :: fenceTicks))
      = '\n' :: (s ++ ['\n']) := by
    have hrest := replaceF_strip_closing ('\n' :: s) (s.length + 5)
      (by show s.length + 1 + 4 ≤ s.length + 5; omega) htick0
    simp only [List.cons_append] at hrest
    show replaceF tick [tick, tick] [] (('\n' :: (s ++ '\n' :: fenceTicks)).length)
        ('\n' :: (s ++ '\n' :: fenceTicks)) = '\n' :: (s ++ ['\n'])
    have hlen2 : ('\n' :: (s ++ '\n' :: fenceTicks)).length = s.length + 5 := by
      simp only [fenceTicks, List.length_append, List.length_cons, List.length_nil]
      try omega
    rw [hlen2]
    exact hrest
  rw [h3]
  exact pyStrip_wrap s hstrip

/-- The fence stripping of the untagged wrapping recovers the wrapped text
exactly. -/
theorem clean_wrapB (s : List Char) (hfence : occurs fenceTicks s = false)
    (hstrip : pyStrip s = s) :
    clean (fenceTicks ++ '\n' :: (s ++ '\n' :: fenceTicks)) = s := by
  have htick0 : occurs fenceTicks ('\n' :: s) = false := by
    simp only [occurs, Bool.or_eq_false_iff]
    exact ⟨rfl, hfence⟩
  have hocc : occurs fenceTicks (fenceTicks ++ '\n' :: (s ++ '\n' :: fenceTicks)) = true := rfl
  simp only [clean, hocc, if_true]
  have h7 : pyReplace tick [tick, tick, 'j', 's', 'o', 'n'] []
      (fenceTicks ++ '\n' :: (s ++ '\n' :: fenceTicks))
      = fenceTicks ++ '\n' :: (s ++ '\n' :: fenceTicks) := by
    have hocc2 : occurs (tick :: [tick, tick, 'j', 's', 'o', 'n'])
        (fenceTicks ++ '\n' :: (s ++ '\n' :: fenceTicks)) = false := by
      show occurs (tick :: [tick, tick, 'j', 's', 'o', 'n'])
          (tick :: tick :: tick :: '\n' :: (s ++ '\n' :: fenceTicks)) = false
      simp only [occurs, Bool.or_eq_false_iff]
      exact ⟨rfl, rfl, rfl, rfl, by simpa using occurs_fenceJson s hfence⟩
    exact replaceF_no_occurrence tick [tick, tick, 'j', 's', 'o', 'n'] []
      ((fenceTicks ++ '\n' :: (s ++ '\n' :: fenceTicks)).length)
      (fenceTicks ++ '\n' :: (s ++ '\n' :: fenceTicks)) le_rfl hocc2
  rw [h7]
  have h3 : pyReplace tick [tick, tick] [] (fenceTicks ++ '\n' :: (s ++ '\n' :: fenceTicks))
      = '\n' :: (s ++ ['\n']) := by
    have hrest := replaceF_strip_closing ('\n' :: s) (s.length + 5)
      (by show s.length + 1 + 4 ≤ s.length + 5; omega) htick0
    simp only [List.cons_append] at hrest
    show replaceF tick [tick, tick] [] ((fenceTicks ++ '\n' :: (s ++ '\n' :: fenceTicks)).length)
        (fenceTicks ++ '\n' :: (s ++ '\n' :: fenceTicks)) = '\n' :: (s ++ ['\n'])
    have hlen : (fenceTicks ++ '\n' :: (s ++ '\n' :: fenceTicks)).length = s.length + 8 := by
      simp only [fenceTicks, List.length_append, List.length_cons, List.length_nil]
      try omega
    rw [hlen]
    show replaceF tick [tick, tick] [] ((s.length + 7) + 1)
        (tick :: tick :: tick :: ('\n' :: (s ++ '\n' :: fenceTicks))) = '\n' :: (s ++ ['\n'])
    rw [replaceF_ticks_head]
    have hrest7 := replaceF_strip_closing ('\n' :: s) (s.length + 7)
      (by show s.length + 1 + 4 ≤ s.length + 7; omega) htick0
    simpa using hrest7
  rw [h3]
  exact pyStrip_wrap s hstrip

/-- C2 counterexample: the serialized array `["` ``"]` (a string containing a
three-backtick run) parses directly, but sanitizing its fence-wrapped form
deletes the backticks inside the string literal, yielding `[""]` instead. -/
theorem sanitize_fence_stripping_corrupts :
    parseTop "[\"```\"]".toList = some (.arr [.str "```"]) ∧
    sanitize "```json\n[\"```\"]\n```".toList = .ok (.arr [.str ""]) ∧
    sanitize "```json\n[\"```\"]\n```".toList ≠ .ok (.arr [.str "```"]) := by
  refine ⟨rfl, rfl, ?_⟩
  rw [show sanitize "```json\n[\"```\"]\n```".toList = .ok (.arr [.str ""]) from rfl]
  simp

/-- C2 (amended): wrapping a serialized JSON array in code fences (with the
`json` language tag or none) and sanitizing recovers exactly the array parsed
from the unwrapped text, provided the serialized text contains no
three-backtick run and carries no surrounding whitespace. -/
theorem sanitize_roundtrip (s : List Char) (v : List Json)
    (hparse : parseTop s = some (.arr v))
    (hfence : occurs fenceTicks s = false)
    (hstrip : pyStrip s = s) :
    sanitize (fenceJsonTag ++ '\n' :: (s ++ '\n' :: fenceTicks)) = .ok (.arr v) ∧
    sanitize (fenceTicks ++ '\n' :: (s ++ '\n' :: fenceTicks)) = .ok (.arr v) := by
  constructor
  · have hc := clean_wrapA s hfence hstrip
    simp [sanitize, hc, hparse]
  · have hc := clean_wrapB s hfence hstrip
    simp [sanitize, hc, hparse]

/-- Witness for the amended C2 at the serialized array `["a", "b"]`. -/
theorem sanitize_roundtrip_witness :
    parseTop "[\"a\", \"b\"]".toList = some (.arr [.str "a", .str "b"]) ∧
    occurs fenceTicks "[\"a\", \"b\"]".toList = false ∧
    pyStrip "[\"a\", \"b\"]".toList = "[\"a\", \"b\"]".toList ∧
    (sanitize (fenceJsonTag ++ '\n' :: ("[\"a\", \"b\"]".toList ++ '\n' :: fenceTicks))
        = .ok (.arr [.str "a", .str "b"]) ∧
     sanitize (fenceTicks ++ '\n' :: ("[\"a\", \"b\"]".toList ++ '\n' :: fenceTicks))
        = .ok (.arr [.str "a", .str "b"])) :=
  ⟨rfl, rfl, rfl, sanitize_roundtrip "[\"a\", \"b\"]".toList [.str "a", .str "b"] rfl rfl rfl⟩
